import Mathlib

/-!
Shallow embedding of the wallet ledger engine
(`src/wallet/wallet.service.ts`, class `WalletService`) together with the
surrounding boundary facts it relies on (DTO validation from
`src/wallet/dto/*.ts`, enums and interfaces from `src/wallet/interfaces/*.ts`).

Modelling choices, stated once:
* Engine-generated identifiers (`uuid()` calls for wallet ids, transaction
  ids and transfer-group ids) are modelled by a counter `nextId` carried in
  the engine state; each `uuid()` call yields the current counter value and
  bumps it, in the exact source order of the calls.  Wallet identifiers are
  therefore `Nat`; callers may still pass arbitrary `Nat`s to the operations.
* Idempotency tokens are client-supplied opaque strings (`String`).  The
  source guards them with JS truthiness (`if (idempotencyKey)`), under which
  the empty string behaves like an absent token; the embedding keeps that
  behaviour exactly.
* JS numbers are modelled as `ℚ`: every value the engine actually
  manipulates in the claims under study (integers in minor units, boundary
  amounts, divisions by 100) is handled exactly by rational arithmetic.
* The three `Map` fields of `WalletService` are association lists with JS
  `Map` semantics: `get` returns the value of the (unique) matching key,
  `set` replaces in place or appends a fresh key at the end.
* `Transaction.timestamp` (`new Date()`) is not modelled: wall-clock time is
  outside the shallow embedding and no property under study mentions it.
* `this.transactionHistory.get(id).push(...)` in the source throws a
  `TypeError` when the history entry is absent (possible only in states the
  engine itself never produces, since `createWallet` always installs the
  entry).  The embedding reports this as the distinguished error
  `WalletError.typeError`, returned together with whatever state mutations
  had already happened at the point of the crash, exactly as the in-memory
  maps would retain them.
-/

namespace WalletService

/-- `Currency` enum from `src/wallet/interfaces/wallet.interface.ts`. -/
inductive Currency : Type
  | USD
  | NGN
  | GBP
deriving DecidableEq, Repr

/-- `TransactionAction` enum from
`src/wallet/interfaces/transaction.interface.ts`. -/
inductive TransactionAction : Type
  | FUND
  | TRANSFER_OUT
  | TRANSFER_IN
deriving DecidableEq, Repr

/-- `Wallet` interface: id, currency, balance (stored in minor units /
cents). -/
structure Wallet : Type where
  id : Nat
  currency : Currency
  balance : ℚ
deriving DecidableEq, Repr

/-- `Transaction` interface (timestamp omitted, see module comment). -/
structure Transaction : Type where
  id : Nat
  walletId : Nat
  action : TransactionAction
  amount : ℚ
  counterpartyWalletId : Option Nat
  transferGroupId : Option Nat
deriving DecidableEq, Repr

/-- The response payloads built by `fundWallet` and `transferFunds`.  The
idempotency store is `any`-typed in the source (`IdempotentResponse.body`),
so a single sum type covers both shapes; each operation returns whatever
payload the cache held, regardless of which operation stored it.

`fund` carries `message`, then the spread of the (mutated) wallet with
`balance` overridden by the major-unit value; `transfer` carries `message`
plus sender/receiver snapshots whose `balance` fields are major-unit. -/
inductive Payload : Type
  | fund (message : String) (id : Nat) (currency : Currency) (balance : ℚ)
  | transfer (message : String) (sender : Wallet) (receiver : Wallet)
deriving DecidableEq, Repr

/-- The NestJS exception classes the service throws, each carrying its
message, plus the JS `TypeError` described in the module comment. -/
inductive WalletError : Type
  | notFoundException (message : String)
  | conflictException (message : String)
  | badRequestException (message : String)
  | typeError
deriving DecidableEq, Repr

deriving instance DecidableEq for Except

/-- The NestJS exception class of an error, as the caller's exception
filter sees it (it dispatches on the class, not on the message). -/
def exceptionClassOf : WalletError → String
  | .notFoundException _ => "NotFoundException"
  | .conflictException _ => "ConflictException"
  | .badRequestException _ => "BadRequestException"
  | .typeError => "TypeError"

/-- The message carried by an error (`TypeError`'s message is irrelevant
here). -/
def messageOf : WalletError → String
  | .notFoundException m => m
  | .conflictException m => m
  | .badRequestException m => m
  | .typeError => "TypeError"

/-- Association list standing in for a JS `Map`. -/
abbrev AList (κ α : Type) : Type := List (κ × α)

/-- JS `Map.get`: value of the matching key, `undefined` (= `none`) when
absent. -/
def mapGet {κ α : Type} [DecidableEq κ] : AList κ α → κ → Option α
  | [], _ => none
  | (k, v) :: rest, key => if k = key then some v else mapGet rest key

/-- JS `Map.set`: replace the matching entry in place, or append a fresh
key at the end. -/
def mapSet {κ α : Type} [DecidableEq κ] : AList κ α → κ → α → AList κ α
  | [], key, v => [(key, v)]
  | (k, w) :: rest, key, v =>
    if k = key then (key, v) :: rest else (k, w) :: mapSet rest key v

/-- The three private `Map` fields of `WalletService`, plus the `uuid()`
counter (see module comment).  `idempotentStore` maps a token to the stored
`IdempotentResponse.body`. -/
structure EngineState : Type where
  wallets : AList Nat Wallet
  transactionHistory : AList Nat (List Transaction)
  idempotentStore : AList String Payload
  nextId : Nat
deriving DecidableEq, Repr

/-- The state of a freshly constructed `WalletService`: all maps empty. -/
def initialState : EngineState :=
  { wallets := [], transactionHistory := [], idempotentStore := [], nextId := 0 }

/-- `checkIdempotency`: `if (idempotencyKey && store.has(key)) return
store.get(key).body`.  The empty string is falsy in JS, hence never hits. -/
def checkIdempotency (s : EngineState) (idempotencyKey : Option String) : Option Payload :=
  match idempotencyKey with
  | none => none
  | some key => if key = "" then none else mapGet s.idempotentStore key

/-- `storeIdempotencyResult`: `if (idempotencyKey) store.set(key, {body:
result})`.  The empty string is falsy in JS, hence never stored. -/
def storeIdempotencyResult (s : EngineState) (idempotencyKey : Option String)
    (result : Payload) : EngineState :=
  match idempotencyKey with
  | none => s
  | some key =>
    if key = "" then s
    else { s with idempotentStore := mapSet s.idempotentStore key result }

/-- `createWallet(createWalletDto)`: fresh id, balance 0, currency
defaulting to USD (`createWalletDto.currency || Currency.USD`; the DTO
itself also defaults to USD, so the engine argument is `Option Currency`).
Installs the wallet and an empty history list, returns the new wallet. -/
def createWallet (s : EngineState) (currency : Option Currency) : Wallet × EngineState :=
  let newWallet : Wallet :=
    { id := s.nextId, balance := 0, currency := currency.getD Currency.USD }
  (newWallet,
    { wallets := mapSet s.wallets newWallet.id newWallet
      transactionHistory := mapSet s.transactionHistory newWallet.id []
      idempotentStore := s.idempotentStore
      nextId := s.nextId + 1 })

/-- `fundWallet(walletId, { amount }, idempotencyKey?)`, statement by
statement in source order: idempotency gate; resolve wallet or throw
`NotFoundException`; `amountInCents = amount * 100`; `wallet.balance +=
amountInCents` (in-place mutation of the map entry); build the `FUND`
transaction (one `uuid()` call); push it onto the history list (the
`typeError` branch models the push on a missing entry, with the balance
mutation already applied); build the result payload from the mutated
wallet with `balance / 100`; store it under the token; return it. -/
def fundWallet (s : EngineState) (walletId : Nat) (amount : ℚ)
    (idempotencyKey : Option String) : Except WalletError Payload × EngineState :=
  match checkIdempotency s idempotencyKey with
  | some cachedResult => (Except.ok cachedResult, s)
  | none =>
    match mapGet s.wallets walletId with
    | none =>
      (Except.error (.notFoundException
        ("Wallet with ID \"" ++ toString walletId ++ "\" not found.")), s)
    | some wallet =>
      let wallet1 : Wallet := { wallet with balance := wallet.balance + amount * 100 }
      let transaction : Transaction :=
        { id := s.nextId, walletId := walletId, action := .FUND, amount := amount,
          counterpartyWalletId := none, transferGroupId := none }
      match mapGet s.transactionHistory walletId with
      | none =>
        (Except.error .typeError,
          { wallets := mapSet s.wallets walletId wallet1
            transactionHistory := s.transactionHistory
            idempotentStore := s.idempotentStore
            nextId := s.nextId + 1 })
      | some history =>
        let result : Payload :=
          .fund "Transaction successful" wallet1.id wallet1.currency (wallet1.balance / 100)
        (Except.ok result,
          storeIdempotencyResult
            { wallets := mapSet s.wallets walletId wallet1
              transactionHistory :=
                mapSet s.transactionHistory walletId (history ++ [transaction])
              idempotentStore := s.idempotentStore
              nextId := s.nextId + 1 }
            idempotencyKey result)

/-- `transferFunds(senderWalletId, { receiverWalletId, amount },
idempotencyKey?)`, statement by statement in source order: idempotency
gate; `Conflict` on self-transfer (before existence checks); resolve both
wallets (sender first) or throw `NotFoundException`;
`BadRequestException` on currency mismatch; `BadRequestException` when
`senderWallet.balance / 100 < amount`; debit sender and credit receiver by
`amount * 100` (in-place mutations); generate `transferGroupId`, sender
transaction id, push sender record, receiver transaction id, push receiver
record — four `uuid()` calls in that source order, with the two
`typeError` branches modelling a push on a missing history entry and
retaining every mutation already applied; build the payload from the
mutated wallets with balances `/ 100`; store under the token; return. -/
def transferFunds (s : EngineState) (senderWalletId : Nat) (receiverWalletId : Nat)
    (amount : ℚ) (idempotencyKey : Option String) :
    Except WalletError Payload × EngineState :=
  match checkIdempotency s idempotencyKey with
  | some cachedResult => (Except.ok cachedResult, s)
  | none =>
    if senderWalletId = receiverWalletId then
      (Except.error (.conflictException "Cannot transfer funds to the same wallet."), s)
    else
      match mapGet s.wallets senderWalletId with
      | none => (Except.error (.notFoundException "Sender wallet not found."), s)
      | some senderWallet =>
        match mapGet s.wallets receiverWalletId with
        | none => (Except.error (.notFoundException "Receiver wallet not found."), s)
        | some receiverWallet =>
          if senderWallet.currency ≠ receiverWallet.currency then
            (Except.error (.badRequestException
              "Transfer between different currencies is not supported."), s)
          else
            if senderWallet.balance / 100 < amount then
              (Except.error (.badRequestException "Insufficient balance in sender wallet."), s)
            else
              let senderWallet1 : Wallet :=
                { senderWallet with balance := senderWallet.balance - amount * 100 }
              let receiverWallet1 : Wallet :=
                { receiverWallet with balance := receiverWallet.balance + amount * 100 }
              let wallets1 : AList Nat Wallet :=
                mapSet (mapSet s.wallets senderWalletId senderWallet1)
                  receiverWalletId receiverWallet1
              let transferGroupId : Nat := s.nextId
              let senderTx : Transaction :=
                { id := s.nextId + 1, walletId := senderWalletId,
                  action := .TRANSFER_OUT, amount := amount,
                  counterpartyWalletId := some receiverWalletId,
                  transferGroupId := some transferGroupId }
              match mapGet s.transactionHistory senderWalletId with
              | none =>
                (Except.error .typeError,
                  { wallets := wallets1
                    transactionHistory := s.transactionHistory
                    idempotentStore := s.idempotentStore
                    nextId := s.nextId + 2 })
              | some senderHistory =>
                let history1 : AList Nat (List Transaction) :=
                  mapSet s.transactionHistory senderWalletId (senderHistory ++ [senderTx])
                let receiverTx : Transaction :=
                  { id := s.nextId + 2, walletId := receiverWalletId,
                    action := .TRANSFER_IN, amount := amount,
                    counterpartyWalletId := some senderWalletId,
                    transferGroupId := some transferGroupId }
                match mapGet history1 receiverWalletId with
                | none =>
                  (Except.error .typeError,
                    { wallets := wallets1
                      transactionHistory := history1
                      idempotentStore := s.idempotentStore
                      nextId := s.nextId + 3 })
                | some receiverHistory =>
                  let result : Payload :=
                    .transfer "Transaction successful"
                      { senderWallet1 with balance := senderWallet1.balance / 100 }
                      { receiverWallet1 with balance := receiverWallet1.balance / 100 }
                  (Except.ok result,
                    storeIdempotencyResult
                      { wallets := wallets1
                        transactionHistory :=
                          mapSet history1 receiverWalletId (receiverHistory ++ [receiverTx])
                        idempotentStore := s.idempotentStore
                        nextId := s.nextId + 3 }
                      idempotencyKey result)

/-- `WalletDetailsResponse`: the wallet spread with `balance / 100` plus
its full history. -/
structure WalletDetailsResponse : Type where
  id : Nat
  currency : Currency
  balance : ℚ
  transactionHistory : List Transaction
deriving DecidableEq, Repr

/-- `getWalletDetails(walletId)`: resolve or throw `NotFoundException`;
history defaults to `[]` (`|| []`); read-only — the state is returned
unchanged, and the idempotency cache is never consulted. -/
def getWalletDetails (s : EngineState) (walletId : Nat) :
    Except WalletError WalletDetailsResponse × EngineState :=
  match mapGet s.wallets walletId with
  | none =>
    (Except.error (.notFoundException
      ("Wallet with ID \"" ++ toString walletId ++ "\" not found.")), s)
  | some wallet =>
    (Except.ok
      { id := wallet.id, currency := wallet.currency, balance := wallet.balance / 100,
        transactionHistory := (mapGet s.transactionHistory walletId).getD [] }, s)

/-- States reachable from a freshly constructed service by any sequence of
engine operations.  The `0 < amount` side conditions on the mutating steps
are the upstream DTO validation (`@IsPositive` in `fund-wallet.dto.ts` and
`transfer-funds.dto.ts`, enforced by the global `ValidationPipe` in
`main.ts`): the engine is only ever handed positive amounts. -/
inductive Reachable : EngineState → Prop
  | init : Reachable initialState
  | create (s : EngineState) (currency : Option Currency) :
      Reachable s → Reachable (createWallet s currency).2
  | fund (s : EngineState) (walletId : Nat) (amount : ℚ) (k : Option String) :
      Reachable s → 0 < amount → Reachable (fundWallet s walletId amount k).2
  | transfer (s : EngineState) (senderWalletId receiverWalletId : Nat) (amount : ℚ)
      (k : Option String) :
      Reachable s → 0 < amount →
      Reachable (transferFunds s senderWalletId receiverWalletId amount k).2
  | details (s : EngineState) (walletId : Nat) :
      Reachable s → Reachable (getWalletDetails s walletId).2

/-- Invariant: every stored balance is non-negative (§3 of the design:
"balance ≥ 0 at all times"). -/
def BalancesNonneg (s : EngineState) : Prop :=
  ∀ p ∈ s.wallets, (0 : ℚ) ≤ p.2.balance

/-- Structural invariant the engine maintains: every wallet has a history
entry (`createWallet` installs it and nothing removes it), so the
`.push` in `fundWallet`/`transferFunds` never lands on `undefined`. -/
def HistTotal (s : EngineState) : Prop :=
  ∀ walletId wallet, mapGet s.wallets walletId = some wallet →
    ∃ history, mapGet s.transactionHistory walletId = some history

/-- Identifier-freshness invariant: every transfer-group identifier already
recorded in some history is strictly below the `uuid()` counter, so the
group identifier generated by the next transfer differs from all of them. -/
def GroupIdsBelow (s : EngineState) : Prop :=
  ∀ p ∈ s.transactionHistory, ∀ t ∈ p.2, ∀ g, t.transferGroupId = some g → g < s.nextId

/-- Integrality of a stored number: a JS number holds an exact integer. -/
def IntegerBalances (s : EngineState) : Prop :=
  ∀ p ∈ s.wallets, p.2.balance.den = 1

instance (s : EngineState) : Decidable (IntegerBalances s) :=
  inferInstanceAs (Decidable (∀ p ∈ s.wallets, p.2.balance.den = 1))

/-- Concrete wallet: id 0, USD, 10000 minor units (100.00 major). -/
def walletA : Wallet := { id := 0, currency := Currency.USD, balance := 10000 }

/-- Concrete wallet: id 1, USD, empty. -/
def walletB : Wallet := { id := 1, currency := Currency.USD, balance := 0 }

/-- Concrete wallet: id 2, NGN, empty. -/
def walletC : Wallet := { id := 2, currency := Currency.NGN, balance := 0 }

/-- A concrete engine state with three wallets and empty histories, used to
instantiate the theorems below on closed inputs. -/
def sampleState : EngineState :=
  { wallets := [(0, walletA), (1, walletB), (2, walletC)]
    transactionHistory := [(0, []), (1, []), (2, [])]
    idempotentStore := []
    nextId := 3 }

/-- An arbitrary payload sitting in the idempotency cache. -/
def cachedPayload : Payload := Payload.fund "Transaction successful" 7 Currency.USD 42

/-- `sampleState` with `cachedPayload` cached under token "tok". -/
def sampleStateCached : EngineState :=
  { sampleState with idempotentStore := [("tok", cachedPayload)] }

/-- One `createWallet` (USD) on the fresh service: wallet 0, balance 0. -/
def reachState0 : EngineState := (createWallet initialState (some Currency.USD)).2

/-- A second `createWallet` (USD): wallet 1, balance 0. -/
def reachState1 : EngineState := (createWallet reachState0 (some Currency.USD)).2

/-- `fundWallet(0, 100)` on top: wallet 0 holds 10000 minor units. -/
def reachState2 : EngineState := (fundWallet reachState1 0 100 none).2

attribute [local semireducible] Rat.add Rat.mul Rat.sub Rat.inv Rat.ofScientific

/-! ### Map lemmas (JS `Map.get` / `Map.set`) -/

theorem mapGet_mapSet_self {κ α : Type} [DecidableEq κ] (m : AList κ α) (k : κ) (v : α) :
    mapGet (mapSet m k v) k = some v := by
  induction m with
  | nil => simp [mapGet, mapSet]
  | cons p rest ih =>
    obtain ⟨k', v'⟩ := p
    by_cases h : k' = k
    · subst h
      simp [mapGet, mapSet]
    · simp [mapGet, mapSet, h, ih]

theorem mapGet_mapSet_ne {κ α : Type} [DecidableEq κ] (m : AList κ α) (k key : κ) (v : α)
    (h : key ≠ k) : mapGet (mapSet m k v) key = mapGet m key := by
  have h' : ¬ k = key := fun hc => h hc.symm
  induction m with
  | nil => simp [mapGet, mapSet, h']
  | cons p rest ih =>
    obtain ⟨k', v'⟩ := p
    by_cases hk : k' = k
    · subst hk
      simp [mapGet, mapSet, h']
    · by_cases hkey : k' = key
      · subst hkey
        simp [mapGet, mapSet, hk]
      · simp [mapGet, mapSet, hk, hkey, ih]

theorem mem_mapSet {κ α : Type} [DecidableEq κ] {m : AList κ α} {k : κ} {v : α}
    {p : κ × α} (h : p ∈ mapSet m k v) : p = (k, v) ∨ p ∈ m := by
  induction m with
  | nil =>
    simp [mapSet] at h
    exact Or.inl h
  | cons q rest ih =>
    obtain ⟨k', v'⟩ := q
    by_cases hk : k' = k
    · subst hk
      simp [mapSet] at h
      rcases h with h | h
      · exact Or.inl h
      · exact Or.inr (List.mem_cons_of_mem _ h)
    · simp [mapSet, hk] at h
      rcases h with h | h
      · exact Or.inr (by simp [h])
      · rcases ih h with h' | h'
        · exact Or.inl h'
        · exact Or.inr (List.mem_cons_of_mem _ h')

theorem mapGet_mem {κ α : Type} [DecidableEq κ] {m : AList κ α} {k : κ} {v : α}
    (h : mapGet m k = some v) : (k, v) ∈ m := by
  induction m with
  | nil => simp [mapGet] at h
  | cons q rest ih =>
    obtain ⟨k', v'⟩ := q
    by_cases hk : k' = k
    · subst hk
      simp [mapGet] at h
      simp [h]
    · simp [mapGet, hk] at h
      exact List.mem_cons_of_mem _ (ih h)

/-! ### Frame lemmas for `storeIdempotencyResult` -/

theorem storeIdempotencyResult_wallets (s : EngineState) (k : Option String) (r : Payload) :
    (storeIdempotencyResult s k r).wallets = s.wallets := by
  cases k with
  | none => rfl
  | some key =>
    by_cases h : key = "" <;> simp [storeIdempotencyResult, h]

theorem storeIdempotencyResult_transactionHistory (s : EngineState) (k : Option String)
    (r : Payload) :
    (storeIdempotencyResult s k r).transactionHistory = s.transactionHistory := by
  cases k with
  | none => rfl
  | some key =>
    by_cases h : key = "" <;> simp [storeIdempotencyResult, h]

theorem storeIdempotencyResult_nextId (s : EngineState) (k : Option String) (r : Payload) :
    (storeIdempotencyResult s k r).nextId = s.nextId := by
  cases k with
  | none => rfl
  | some key =>
    by_cases h : key = "" <;> simp [storeIdempotencyResult, h]

theorem mapGet_storeIdempotencyResult_empty (s : EngineState) (k : Option String)
    (r : Payload) :
    mapGet (storeIdempotencyResult s k r).idempotentStore "" =
      mapGet s.idempotentStore "" := by
  cases k with
  | none => rfl
  | some key =>
    by_cases h : key = ""
    · simp [storeIdempotencyResult, h]
    · have hne : ("" : String) ≠ key := fun hc => h hc.symm
      simp [storeIdempotencyResult, h, mapGet_mapSet_ne s.idempotentStore key "" r hne]

/-! ### Branch characterisations of `fundWallet` -/

theorem fundWallet_cached (s : EngineState) (walletId : Nat) (amount : ℚ)
    (k : Option String) (p : Payload) (hc : checkIdempotency s k = some p) :
    fundWallet s walletId amount k = (Except.ok p, s) := by
  unfold fundWallet
  rw [hc]

theorem fundWallet_notFound (s : EngineState) (walletId : Nat) (amount : ℚ)
    (k : Option String) (hc : checkIdempotency s k = none)
    (hw : mapGet s.wallets walletId = none) :
    fundWallet s walletId amount k =
      (Except.error (.notFoundException
        ("Wallet with ID \"" ++ toString walletId ++ "\" not found.")), s) := by
  unfold fundWallet
  rw [hc, hw]

theorem fundWallet_success (s : EngineState) (walletId : Nat) (amount : ℚ)
    (k : Option String) (wallet : Wallet) (history : List Transaction)
    (hc : checkIdempotency s k = none)
    (hw : mapGet s.wallets walletId = some wallet)
    (hh : mapGet s.transactionHistory walletId = some history) :
    fundWallet s walletId amount k =
      (Except.ok (Payload.fund "Transaction successful" wallet.id wallet.currency
        ((wallet.balance + amount * 100) / 100)),
       storeIdempotencyResult
         { wallets := mapSet s.wallets walletId
             { wallet with balance := wallet.balance + amount * 100 }
           transactionHistory := mapSet s.transactionHistory walletId
             (history ++ [{ id := s.nextId, walletId := walletId,
                            action := .FUND, amount := amount,
                            counterpartyWalletId := none, transferGroupId := none }])
           idempotentStore := s.idempotentStore
           nextId := s.nextId + 1 } k
         (Payload.fund "Transaction successful" wallet.id wallet.currency
           ((wallet.balance + amount * 100) / 100))) := by
  unfold fundWallet
  rw [hc, hw, hh]

/-! ### Branch characterisations of `transferFunds` -/

theorem transferFunds_cached (s : EngineState) (senderWalletId receiverWalletId : Nat)
    (amount : ℚ) (k : Option String) (p : Payload)
    (hc : checkIdempotency s k = some p) :
    transferFunds s senderWalletId receiverWalletId amount k = (Except.ok p, s) := by
  unfold transferFunds
  rw [hc]

theorem transferFunds_selfTransfer (s : EngineState) (walletId : Nat) (amount : ℚ)
    (k : Option String) (hc : checkIdempotency s k = none) :
    transferFunds s walletId walletId amount k =
      (Except.error (.conflictException "Cannot transfer funds to the same wallet."), s) := by
  unfold transferFunds
  rw [hc]
  simp

theorem transferFunds_senderNotFound (s : EngineState)
    (senderWalletId receiverWalletId : Nat) (amount : ℚ) (k : Option String)
    (hc : checkIdempotency s k = none)
    (hne : senderWalletId ≠ receiverWalletId)
    (hs : mapGet s.wallets senderWalletId = none) :
    transferFunds s senderWalletId receiverWalletId amount k =
      (Except.error (.notFoundException "Sender wallet not found."), s) := by
  unfold transferFunds
  rw [hc, if_neg hne, hs]

theorem transferFunds_receiverNotFound (s : EngineState)
    (senderWalletId receiverWalletId : Nat) (amount : ℚ) (k : Option String)
    (senderWallet : Wallet)
    (hc : checkIdempotency s k = none)
    (hne : senderWalletId ≠ receiverWalletId)
    (hs : mapGet s.wallets senderWalletId = some senderWallet)
    (hr : mapGet s.wallets receiverWalletId = none) :
    transferFunds s senderWalletId receiverWalletId amount k =
      (Except.error (.notFoundException "Receiver wallet not found."), s) := by
  unfold transferFunds
  rw [hc, if_neg hne, hs, hr]

theorem transferFunds_currencyMismatch (s : EngineState)
    (senderWalletId receiverWalletId : Nat) (amount : ℚ) (k : Option String)
    (senderWallet receiverWallet : Wallet)
    (hc : checkIdempotency s k = none)
    (hne : senderWalletId ≠ receiverWalletId)
    (hs : mapGet s.wallets senderWalletId = some senderWallet)
    (hr : mapGet s.wallets receiverWalletId = some receiverWallet)
    (hcur : senderWallet.currency ≠ receiverWallet.currency) :
    transferFunds s senderWalletId receiverWalletId amount k =
      (Except.error (.badRequestException
        "Transfer between different currencies is not supported."), s) := by
  unfold transferFunds
  rw [hc]
  dsimp only
  rw [if_neg hne, hs]
  dsimp only
  rw [hr]
  dsimp only
  rw [if_pos hcur]

theorem transferFunds_insufficient (s : EngineState)
    (senderWalletId receiverWalletId : Nat) (amount : ℚ) (k : Option String)
    (senderWallet receiverWallet : Wallet)
    (hc : checkIdempotency s k = none)
    (hne : senderWalletId ≠ receiverWalletId)
    (hs : mapGet s.wallets senderWalletId = some senderWallet)
    (hr : mapGet s.wallets receiverWalletId = some receiverWallet)
    (hcur : senderWallet.currency = receiverWallet.currency)
    (hlt : senderWallet.balance / 100 < amount) :
    transferFunds s senderWalletId receiverWalletId amount k =
      (Except.error (.badRequestException "Insufficient balance in sender wallet."), s) := by
  unfold transferFunds
  rw [hc]
  dsimp only
  rw [if_neg hne, hs]
  dsimp only
  rw [hr]
  dsimp only
  rw [if_neg (not_not_intro hcur), if_pos hlt]

theorem transferFunds_success (s : EngineState)
    (senderWalletId receiverWalletId : Nat) (amount : ℚ) (k : Option String)
    (senderWallet receiverWallet : Wallet)
    (senderHistory receiverHistory : List Transaction)
    (hc : checkIdempotency s k = none)
    (hne : senderWalletId ≠ receiverWalletId)
    (hs : mapGet s.wallets senderWalletId = some senderWallet)
    (hr : mapGet s.wallets receiverWalletId = some receiverWallet)
    (hcur : senderWallet.currency = receiverWallet.currency)
    (hge : amount ≤ senderWallet.balance / 100)
    (hhs : mapGet s.transactionHistory senderWalletId = some senderHistory)
    (hhr : mapGet s.transactionHistory receiverWalletId = some receiverHistory) :
    transferFunds s senderWalletId receiverWalletId amount k =
      (Except.ok (Payload.transfer "Transaction successful"
        { senderWallet with balance := (senderWallet.balance - amount * 100) / 100 }
        { receiverWallet with balance := (receiverWallet.balance + amount * 100) / 100 }),
       storeIdempotencyResult
         { wallets := mapSet (mapSet s.wallets senderWalletId
             { senderWallet with balance := senderWallet.balance - amount * 100 })
             receiverWalletId
             { receiverWallet with balance := receiverWallet.balance + amount * 100 }
           transactionHistory :=
             mapSet (mapSet s.transactionHistory senderWalletId
               (senderHistory ++
                 [{ id := s.nextId + 1, walletId := senderWalletId,
                    action := .TRANSFER_OUT, amount := amount,
                    counterpartyWalletId := some receiverWalletId,
                    transferGroupId := some s.nextId }]))
               receiverWalletId
               (receiverHistory ++
                 [{ id := s.nextId + 2, walletId := receiverWalletId,
                    action := .TRANSFER_IN, amount := amount,
                    counterpartyWalletId := some senderWalletId,
                    transferGroupId := some s.nextId }])
           idempotentStore := s.idempotentStore
           nextId := s.nextId + 3 } k
         (Payload.transfer "Transaction successful"
           { senderWallet with balance := (senderWallet.balance - amount * 100) / 100 }
           { receiverWallet with balance := (receiverWallet.balance + amount * 100) / 100 })) := by
  have hrs : receiverWalletId ≠ senderWalletId := fun hc' => hne hc'.symm
  unfold transferFunds
  rw [hc]
  dsimp only
  rw [if_neg hne, hs]
  dsimp only
  rw [hr]
  dsimp only
  rw [if_neg (not_not_intro hcur), if_neg (not_lt.mpr hge)]
  rw [hhs]
  dsimp only
  rw [mapGet_mapSet_ne s.transactionHistory senderWalletId receiverWalletId _ hrs, hhr]

/-! ### State-shape facts and invariant preservation -/

theorem getWalletDetails_state (s : EngineState) (walletId : Nat) :
    (getWalletDetails s walletId).2 = s := by
  unfold getWalletDetails
  split <;> rfl

theorem balancesNonneg_createWallet (s : EngineState) (currency : Option Currency)
    (h : BalancesNonneg s) : BalancesNonneg (createWallet s currency).2 := by
  intro p hp
  rcases mem_mapSet hp with hp' | hp'
  · subst hp'
    norm_num
  · exact h p hp'

theorem balancesNonneg_fundWallet (s : EngineState) (walletId : Nat) (amount : ℚ)
    (k : Option String) (hpos : 0 < amount) (h : BalancesNonneg s) :
    BalancesNonneg (fundWallet s walletId amount k).2 := by
  unfold fundWallet
  split
  · exact h
  · split
    · exact h
    · next wallet hw =>
      have hbal : (0 : ℚ) ≤ wallet.balance := h _ (mapGet_mem hw)
      have hnew : (0 : ℚ) ≤ wallet.balance + amount * 100 := by linarith
      split
      · intro p hp
        rcases mem_mapSet hp with hp' | hp'
        · subst hp'
          exact hnew
        · exact h p hp'
      · intro p hp
        rw [storeIdempotencyResult_wallets] at hp
        rcases mem_mapSet hp with hp' | hp'
        · subst hp'
          exact hnew
        · exact h p hp'

theorem balancesNonneg_transferFunds (s : EngineState)
    (senderWalletId receiverWalletId : Nat) (amount : ℚ) (k : Option String)
    (hpos : 0 < amount) (h : BalancesNonneg s) :
    BalancesNonneg (transferFunds s senderWalletId receiverWalletId amount k).2 := by
  unfold transferFunds
  split
  · exact h
  · split
    · exact h
    · split
      · exact h
      · next senderWallet hs =>
        split
        · exact h
        · next receiverWallet hr =>
          split
          · exact h
          · split
            · exact h
            · next hlt =>
              have hsb : (0 : ℚ) ≤ senderWallet.balance := h _ (mapGet_mem hs)
              have hrb : (0 : ℚ) ≤ receiverWallet.balance := h _ (mapGet_mem hr)
              have hge : amount ≤ senderWallet.balance / 100 := not_lt.mp hlt
              have hcents : amount * 100 ≤ senderWallet.balance :=
                (le_div_iff₀ (by norm_num : (0 : ℚ) < 100)).mp hge
              have hsnew : (0 : ℚ) ≤ senderWallet.balance - amount * 100 := by linarith
              have hrnew : (0 : ℚ) ≤ receiverWallet.balance + amount * 100 := by linarith
              have hmem : ∀ p : Nat × Wallet,
                  p ∈ mapSet (mapSet s.wallets senderWalletId
                    { senderWallet with balance := senderWallet.balance - amount * 100 })
                    receiverWalletId
                    { receiverWallet with balance := receiverWallet.balance + amount * 100 } →
                  (0 : ℚ) ≤ p.2.balance := by
                intro p hp
                rcases mem_mapSet hp with hp' | hp'
                · subst hp'
                  exact hrnew
                · rcases mem_mapSet hp' with hp'' | hp''
                  · subst hp''
                    exact hsnew
                  · exact h p hp''
              split
              · exact fun p hp => hmem p hp
              · dsimp only
                split
                · exact fun p hp => hmem p hp
                · intro p hp
                  rw [storeIdempotencyResult_wallets] at hp
                  exact hmem p hp

theorem histTotal_createWallet (s : EngineState) (currency : Option Currency)
    (h : HistTotal s) : HistTotal (createWallet s currency).2 := by
  intro id w hw
  by_cases hid : id = s.nextId
  · subst hid
    exact ⟨[], mapGet_mapSet_self _ _ _⟩
  · rw [show (createWallet s currency).2.wallets = mapSet s.wallets s.nextId
        { id := s.nextId, balance := 0, currency := currency.getD Currency.USD } from rfl,
      mapGet_mapSet_ne _ _ _ _ hid] at hw
    obtain ⟨history, hh⟩ := h id w hw
    exact ⟨history, by
      rw [show (createWallet s currency).2.transactionHistory =
            mapSet s.transactionHistory s.nextId [] from rfl,
        mapGet_mapSet_ne _ _ _ _ hid]
      exact hh⟩

theorem histTotal_fundWallet (s : EngineState) (walletId : Nat) (amount : ℚ)
    (k : Option String) (h : HistTotal s) :
    HistTotal (fundWallet s walletId amount k).2 := by
  unfold fundWallet
  split
  · exact h
  · split
    · exact h
    · next wallet hw =>
      split
      · next hh =>
        obtain ⟨history, hh0⟩ := h _ _ hw
        rw [hh] at hh0
        exact absurd hh0 (by simp)
      · next history hh =>
        intro id w hw'
        rw [storeIdempotencyResult_wallets] at hw'
        rw [storeIdempotencyResult_transactionHistory]
        by_cases hid : id = walletId
        · subst hid
          exact ⟨_, mapGet_mapSet_self _ _ _⟩
        · rw [mapGet_mapSet_ne _ _ _ _ hid] at hw'
          obtain ⟨history', hh'⟩ := h id w hw'
          exact ⟨history', by rw [mapGet_mapSet_ne _ _ _ _ hid]; exact hh'⟩

theorem histTotal_transferFunds (s : EngineState)
    (senderWalletId receiverWalletId : Nat) (amount : ℚ) (k : Option String)
    (h : HistTotal s) :
    HistTotal (transferFunds s senderWalletId receiverWalletId amount k).2 := by
  unfold transferFunds
  split
  · exact h
  · split
    · exact h
    · next hne =>
      have hner : receiverWalletId ≠ senderWalletId := fun hc => hne hc.symm
      split
      · exact h
      · next senderWallet hs =>
        split
        · exact h
        · next receiverWallet hr =>
          split
          · exact h
          · split
            · exact h
            · split
              · next hh =>
                obtain ⟨history, hh0⟩ := h _ _ hs
                rw [hh] at hh0
                exact absurd hh0 (by simp)
              · next senderHistory hhs =>
                dsimp only
                split
                · next hh =>
                  rw [mapGet_mapSet_ne _ _ _ _ hner] at hh
                  obtain ⟨history, hh0⟩ := h _ _ hr
                  rw [hh] at hh0
                  exact absurd hh0 (by simp)
                · next receiverHistory hhr =>
                  intro id w hw'
                  rw [storeIdempotencyResult_wallets] at hw'
                  rw [storeIdempotencyResult_transactionHistory]
                  by_cases hidr : id = receiverWalletId
                  · subst hidr
                    exact ⟨_, mapGet_mapSet_self _ _ _⟩
                  · by_cases hids : id = senderWalletId
                    · subst hids
                      rw [mapGet_mapSet_ne _ _ _ _ hidr]
                      exact ⟨_, mapGet_mapSet_self _ _ _⟩
                    · rw [mapGet_mapSet_ne _ _ _ _ hidr,
                        mapGet_mapSet_ne _ _ _ _ hids] at hw'
                      obtain ⟨history', hh'⟩ := h id w hw'
                      refine ⟨history', ?_⟩
                      rw [mapGet_mapSet_ne _ _ _ _ hidr,
                        mapGet_mapSet_ne _ _ _ _ hids]
                      exact hh'

theorem reachable_histTotal (s : EngineState) (h : Reachable s) : HistTotal s := by
  induction h with
  | init =>
    intro id w hw
    exact absurd hw (by simp [initialState, mapGet])
  | create s' currency _ ih => exact histTotal_createWallet s' currency ih
  | fund s' walletId amount k _ _ ih => exact histTotal_fundWallet s' walletId amount k ih
  | transfer s' senderWalletId receiverWalletId amount k _ _ ih =>
    exact histTotal_transferFunds s' senderWalletId receiverWalletId amount k ih
  | details s' walletId _ ih =>
    rw [getWalletDetails_state]
    exact ih

theorem groupIdsBelow_createWallet (s : EngineState) (currency : Option Currency)
    (h : GroupIdsBelow s) : GroupIdsBelow (createWallet s currency).2 := by
  intro p hp t ht g hg
  rcases mem_mapSet hp with hp' | hp'
  · subst hp'
    exact absurd ht (by simp)
  · exact Nat.lt_succ_of_lt (h p hp' t ht g hg)

theorem groupIdsBelow_fundWallet (s : EngineState) (walletId : Nat) (amount : ℚ)
    (k : Option String) (h : GroupIdsBelow s) :
    GroupIdsBelow (fundWallet s walletId amount k).2 := by
  unfold fundWallet
  split
  · exact h
  · split
    · exact h
    · next wallet hw =>
      split
      · intro p hp t ht g hg
        exact Nat.lt_succ_of_lt (h p hp t ht g hg)
      · next history hh =>
        intro p hp t ht g hg
        rw [storeIdempotencyResult_transactionHistory] at hp
        rw [storeIdempotencyResult_nextId]
        rcases mem_mapSet hp with hp' | hp'
        · subst hp'
          rcases List.mem_append.mp ht with ht' | ht'
          · exact Nat.lt_succ_of_lt (h _ (mapGet_mem hh) t ht' g hg)
          · rw [List.mem_singleton.mp ht'] at hg
            exact absurd hg (by simp)
        · exact Nat.lt_succ_of_lt (h p hp' t ht g hg)

theorem groupIdsBelow_transferFunds (s : EngineState)
    (senderWalletId receiverWalletId : Nat) (amount : ℚ) (k : Option String)
    (h : GroupIdsBelow s) :
    GroupIdsBelow (transferFunds s senderWalletId receiverWalletId amount k).2 := by
  unfold transferFunds
  split
  · exact h
  · split
    · exact h
    · next hne =>
      have hner : receiverWalletId ≠ senderWalletId := fun hc => hne hc.symm
      split
      · exact h
      · next senderWallet hs =>
        split
        · exact h
        · next receiverWallet hr =>
          split
          · exact h
          · split
            · exact h
            · split
              · intro p hp t ht g hg
                exact Nat.lt_of_lt_of_le (h p hp t ht g hg) (Nat.le_add_right _ 2)
              · next senderHistory hhs =>
                dsimp only
                have hsenderSet : ∀ p : Nat × List Transaction,
                    p ∈ mapSet s.transactionHistory senderWalletId
                      (senderHistory ++
                        [{ id := s.nextId + 1, walletId := senderWalletId,
                           action := .TRANSFER_OUT, amount := amount,
                           counterpartyWalletId := some receiverWalletId,
                           transferGroupId := some s.nextId }]) →
                    ∀ t ∈ p.2, ∀ g, t.transferGroupId = some g → g < s.nextId + 3 := by
                  intro p hp t ht g hg
                  rcases mem_mapSet hp with hp' | hp'
                  · subst hp'
                    rcases List.mem_append.mp ht with ht' | ht'
                    · exact Nat.lt_of_lt_of_le (h _ (mapGet_mem hhs) t ht' g hg)
                        (Nat.le_add_right _ 3)
                    · rw [List.mem_singleton.mp ht'] at hg
                      rw [show Transaction.transferGroupId
                            { id := s.nextId + 1, walletId := senderWalletId,
                              action := .TRANSFER_OUT, amount := amount,
                              counterpartyWalletId := some receiverWalletId,
                              transferGroupId := some s.nextId } = some s.nextId from rfl]
                        at hg
                      rw [← Option.some_inj.mp hg]
                      omega
                  · exact Nat.lt_of_lt_of_le (h p hp' t ht g hg) (Nat.le_add_right _ 3)
                split
                · exact fun p hp t ht g hg => hsenderSet p hp t ht g hg
                · next receiverHistory hhr =>
                  rw [mapGet_mapSet_ne _ _ _ _ hner] at hhr
                  intro p hp t ht g hg
                  rw [storeIdempotencyResult_transactionHistory] at hp
                  rw [storeIdempotencyResult_nextId]
                  show g < s.nextId + 3
                  rcases mem_mapSet hp with hp' | hp'
                  · subst hp'
                    rcases List.mem_append.mp ht with ht' | ht'
                    · exact Nat.lt_of_lt_of_le (h _ (mapGet_mem hhr) t ht' g hg)
                        (Nat.le_add_right _ 3)
                    · rw [List.mem_singleton.mp ht'] at hg
                      rw [show Transaction.transferGroupId
                            { id := s.nextId + 2, walletId := receiverWalletId,
                              action := .TRANSFER_IN, amount := amount,
                              counterpartyWalletId := some senderWalletId,
                              transferGroupId := some s.nextId } = some s.nextId from rfl]
                        at hg
                      rw [← Option.some_inj.mp hg]
                      omega
                  · exact hsenderSet p hp' t ht g hg

theorem reachable_groupIdsBelow (s : EngineState) (h : Reachable s) : GroupIdsBelow s := by
  induction h with
  | init =>
    intro p hp
    exact absurd hp (by simp [initialState])
  | create s' currency _ ih => exact groupIdsBelow_createWallet s' currency ih
  | fund s' walletId amount k _ _ ih => exact groupIdsBelow_fundWallet s' walletId amount k ih
  | transfer s' senderWalletId receiverWalletId amount k _ _ ih =>
    exact groupIdsBelow_transferFunds s' senderWalletId receiverWalletId amount k ih
  | details s' walletId _ ih =>
    rw [getWalletDetails_state]
    exact ih

theorem emptyToken_fundWallet (s : EngineState) (walletId : Nat) (amount : ℚ)
    (k : Option String) (h : mapGet s.idempotentStore "" = none) :
    mapGet (fundWallet s walletId amount k).2.idempotentStore "" = none := by
  unfold fundWallet
  split
  · exact h
  · split
    · exact h
    · split
      · exact h
      · rw [mapGet_storeIdempotencyResult_empty]
        exact h

theorem emptyToken_transferFunds (s : EngineState)
    (senderWalletId receiverWalletId : Nat) (amount : ℚ) (k : Option String)
    (h : mapGet s.idempotentStore "" = none) :
    mapGet (transferFunds s senderWalletId receiverWalletId amount k).2.idempotentStore ""
      = none := by
  unfold transferFunds
  split
  · exact h
  · split
    · exact h
    · split
      · exact h
      · split
        · exact h
        · split
          · exact h
          · split
            · exact h
            · split
              · exact h
              · dsimp only
                split
                · exact h
                · rw [mapGet_storeIdempotencyResult_empty]
                  exact h

theorem reachable_emptyTokenNotCached (s : EngineState) (h : Reachable s) :
    mapGet s.idempotentStore "" = none := by
  induction h with
  | init => rfl
  | create s' currency _ ih => exact ih
  | fund s' walletId amount k _ _ ih => exact emptyToken_fundWallet s' walletId amount k ih
  | transfer s' senderWalletId receiverWalletId amount k _ _ ih =>
    exact emptyToken_transferFunds s' senderWalletId receiverWalletId amount k ih
  | details s' walletId _ ih =>
    rw [getWalletDetails_state]
    exact ih

theorem fundWallet_missingHistory (s : EngineState) (walletId : Nat) (amount : ℚ)
    (k : Option String) (wallet : Wallet)
    (hc : checkIdempotency s k = none)
    (hw : mapGet s.wallets walletId = some wallet)
    (hh : mapGet s.transactionHistory walletId = none) :
    fundWallet s walletId amount k =
      (Except.error .typeError,
        { wallets := mapSet s.wallets walletId
            { wallet with balance := wallet.balance + amount * 100 }
          transactionHistory := s.transactionHistory
          idempotentStore := s.idempotentStore
          nextId := s.nextId + 1 }) := by
  unfold fundWallet
  rw [hc, hw, hh]

theorem transferFunds_missingSenderHistory (s : EngineState)
    (senderWalletId receiverWalletId : Nat) (amount : ℚ) (k : Option String)
    (senderWallet receiverWallet : Wallet)
    (hc : checkIdempotency s k = none)
    (hne : senderWalletId ≠ receiverWalletId)
    (hs : mapGet s.wallets senderWalletId = some senderWallet)
    (hr : mapGet s.wallets receiverWalletId = some receiverWallet)
    (hcur : senderWallet.currency = receiverWallet.currency)
    (hge : amount ≤ senderWallet.balance / 100)
    (hhs : mapGet s.transactionHistory senderWalletId = none) :
    transferFunds s senderWalletId receiverWalletId amount k =
      (Except.error .typeError,
        { wallets := mapSet (mapSet s.wallets senderWalletId
            { senderWallet with balance := senderWallet.balance - amount * 100 })
            receiverWalletId
            { receiverWallet with balance := receiverWallet.balance + amount * 100 }
          transactionHistory := s.transactionHistory
          idempotentStore := s.idempotentStore
          nextId := s.nextId + 2 }) := by
  unfold transferFunds
  rw [hc]
  dsimp only
  rw [if_neg hne, hs]
  dsimp only
  rw [hr]
  dsimp only
  rw [if_neg (not_not_intro hcur), if_neg (not_lt.mpr hge)]
  rw [hhs]

theorem transferFunds_missingReceiverHistory (s : EngineState)
    (senderWalletId receiverWalletId : Nat) (amount : ℚ) (k : Option String)
    (senderWallet receiverWallet : Wallet) (senderHistory : List Transaction)
    (hc : checkIdempotency s k = none)
    (hne : senderWalletId ≠ receiverWalletId)
    (hs : mapGet s.wallets senderWalletId = some senderWallet)
    (hr : mapGet s.wallets receiverWalletId = some receiverWallet)
    (hcur : senderWallet.currency = receiverWallet.currency)
    (hge : amount ≤ senderWallet.balance / 100)
    (hhs : mapGet s.transactionHistory senderWalletId = some senderHistory)
    (hhr : mapGet s.transactionHistory receiverWalletId = none) :
    transferFunds s senderWalletId receiverWalletId amount k =
      (Except.error .typeError,
        { wallets := mapSet (mapSet s.wallets senderWalletId
            { senderWallet with balance := senderWallet.balance - amount * 100 })
            receiverWalletId
            { receiverWallet with balance := receiverWallet.balance + amount * 100 }
          transactionHistory :=
            mapSet s.transactionHistory senderWalletId
              (senderHistory ++
                [{ id := s.nextId + 1, walletId := senderWalletId,
                   action := .TRANSFER_OUT, amount := amount,
                   counterpartyWalletId := some receiverWalletId,
                   transferGroupId := some s.nextId }])
          idempotentStore := s.idempotentStore
          nextId := s.nextId + 3 }) := by
  have hrs : receiverWalletId ≠ senderWalletId := fun hc' => hne hc'.symm
  unfold transferFunds
  rw [hc]
  dsimp only
  rw [if_neg hne, hs]
  dsimp only
  rw [hr]
  dsimp only
  rw [if_neg (not_not_intro hcur), if_neg (not_lt.mpr hge)]
  rw [hhs]
  dsimp only
  rw [mapGet_mapSet_ne _ _ _ _ hrs, hhr]

theorem checkIdempotency_some_token (s : EngineState) (t : String) (ht : t ≠ "") :
    checkIdempotency s (some t) = mapGet s.idempotentStore t := by
  unfold checkIdempotency
  dsimp only
  rw [if_neg ht]

theorem storeIdempotencyResult_some_token (s : EngineState) (t : String) (ht : t ≠ "")
    (r : Payload) :
    storeIdempotencyResult s (some t) r =
      { s with idempotentStore := mapSet s.idempotentStore t r } := by
  unfold storeIdempotencyResult
  dsimp only
  rw [if_neg ht]

/-- A call to `fundWallet` bearing a non-empty token that returns `ok`
leaves that token mapped to the returned payload in the cache. -/
theorem fundWallet_ok_stores (s s1 : EngineState) (walletId : Nat) (amount : ℚ)
    (t : String) (p : Payload) (ht : t ≠ "")
    (hcall : fundWallet s walletId amount (some t) = (Except.ok p, s1)) :
    mapGet s1.idempotentStore t = some p := by
  cases hch : checkIdempotency s (some t) with
  | some cached =>
    rw [fundWallet_cached _ _ _ _ _ hch] at hcall
    obtain ⟨hp, hst⟩ := Prod.mk.injEq .. ▸ hcall
    have : cached = p := Except.ok.inj hp
    subst this
    subst hst
    rw [checkIdempotency_some_token s t ht] at hch
    exact hch
  | none =>
    cases hw : mapGet s.wallets walletId with
    | none =>
      rw [fundWallet_notFound _ _ _ _ hch hw] at hcall
      exact absurd (congrArg Prod.fst hcall) (by simp)
    | some wallet =>
      cases hh : mapGet s.transactionHistory walletId with
      | none =>
        rw [fundWallet_missingHistory _ _ _ _ _ hch hw hh] at hcall
        exact absurd (congrArg Prod.fst hcall) (by simp)
      | some history =>
        rw [fundWallet_success _ _ _ _ _ _ hch hw hh] at hcall
        have hp : Payload.fund "Transaction successful" wallet.id wallet.currency
            ((wallet.balance + amount * 100) / 100) = p :=
          Except.ok.inj (congrArg Prod.fst hcall)
        have hst := congrArg Prod.snd hcall
        dsimp only at hst
        rw [← hst, ← hp, storeIdempotencyResult_some_token _ t ht]
        exact mapGet_mapSet_self _ _ _

/-- A call to `transferFunds` bearing a non-empty token that returns `ok`
leaves that token mapped to the returned payload in the cache. -/
theorem transferFunds_ok_stores (s s1 : EngineState)
    (senderWalletId receiverWalletId : Nat) (amount : ℚ) (t : String) (p : Payload)
    (ht : t ≠ "")
    (hcall : transferFunds s senderWalletId receiverWalletId amount (some t)
      = (Except.ok p, s1)) :
    mapGet s1.idempotentStore t = some p := by
  cases hch : checkIdempotency s (some t) with
  | some cached =>
    rw [transferFunds_cached _ _ _ _ _ _ hch] at hcall
    obtain ⟨hp, hst⟩ := Prod.mk.injEq .. ▸ hcall
    have : cached = p := Except.ok.inj hp
    subst this
    subst hst
    rw [checkIdempotency_some_token s t ht] at hch
    exact hch
  | none =>
    by_cases heqid : senderWalletId = receiverWalletId
    · subst heqid
      rw [transferFunds_selfTransfer _ _ _ _ hch] at hcall
      exact absurd (congrArg Prod.fst hcall) (by simp)
    · cases hs : mapGet s.wallets senderWalletId with
      | none =>
        rw [transferFunds_senderNotFound _ _ _ _ _ hch heqid hs] at hcall
        exact absurd (congrArg Prod.fst hcall) (by simp)
      | some senderWallet =>
        cases hr : mapGet s.wallets receiverWalletId with
        | none =>
          rw [transferFunds_receiverNotFound _ _ _ _ _ _ hch heqid hs hr] at hcall
          exact absurd (congrArg Prod.fst hcall) (by simp)
        | some receiverWallet =>
          by_cases hcur : senderWallet.currency = receiverWallet.currency
          · by_cases hlt : senderWallet.balance / 100 < amount
            · rw [transferFunds_insufficient _ _ _ _ _ _ _ hch heqid hs hr hcur hlt]
                at hcall
              exact absurd (congrArg Prod.fst hcall) (by simp)
            · have hge : amount ≤ senderWallet.balance / 100 := not_lt.mp hlt
              cases hhs : mapGet s.transactionHistory senderWalletId with
              | none =>
                rw [transferFunds_missingSenderHistory _ _ _ _ _ _ _ hch heqid hs hr
                  hcur hge hhs] at hcall
                exact absurd (congrArg Prod.fst hcall) (by simp)
              | some senderHistory =>
                cases hhr : mapGet s.transactionHistory receiverWalletId with
                | none =>
                  rw [transferFunds_missingReceiverHistory _ _ _ _ _ _ _ _ hch heqid
                    hs hr hcur hge hhs hhr] at hcall
                  exact absurd (congrArg Prod.fst hcall) (by simp)
                | some receiverHistory =>
                  rw [transferFunds_success _ _ _ _ _ _ _ _ _ hch heqid hs hr hcur hge
                    hhs hhr] at hcall
                  have hp : Payload.transfer "Transaction successful"
                      { senderWallet with
                        balance := (senderWallet.balance - amount * 100) / 100 }
                      { receiverWallet with
                        balance := (receiverWallet.balance + amount * 100) / 100 } = p :=
                    Except.ok.inj (congrArg Prod.fst hcall)
                  have hst := congrArg Prod.snd hcall
                  dsimp only at hst
                  rw [← hst, ← hp, storeIdempotencyResult_some_token _ t ht]
                  exact mapGet_mapSet_self _ _ _
          · rw [transferFunds_currencyMismatch _ _ _ _ _ _ _ hch heqid hs hr hcur]
              at hcall
            exact absurd (congrArg Prod.fst hcall) (by simp)

/-! ### Integrality of rationals -/

theorem den_one_add {a b : ℚ} (ha : a.den = 1) (hb : b.den = 1) : (a + b).den = 1 := by
  rw [← Rat.coe_int_num_of_den_eq_one ha, ← Rat.coe_int_num_of_den_eq_one hb,
    ← Int.cast_add]
  exact Rat.den_intCast _

theorem den_one_sub {a b : ℚ} (ha : a.den = 1) (hb : b.den = 1) : (a - b).den = 1 := by
  rw [← Rat.coe_int_num_of_den_eq_one ha, ← Rat.coe_int_num_of_den_eq_one hb,
    ← Int.cast_sub]
  exact Rat.den_intCast _

theorem integerBalances_createWallet (s : EngineState) (currency : Option Currency)
    (h : IntegerBalances s) : IntegerBalances (createWallet s currency).2 := by
  intro p hp
  rcases mem_mapSet hp with hp' | hp'
  · subst hp'
    rfl
  · exact h p hp'

theorem integerBalances_fundWallet (s : EngineState) (walletId : Nat) (amount : ℚ)
    (k : Option String) (hamt : (amount * 100).den = 1) (h : IntegerBalances s) :
    IntegerBalances (fundWallet s walletId amount k).2 := by
  unfold fundWallet
  split
  · exact h
  · split
    · exact h
    · next wallet hw =>
      have hnew : (wallet.balance + amount * 100).den = 1 :=
        den_one_add (h _ (mapGet_mem hw)) hamt
      split
      · intro p hp
        rcases mem_mapSet hp with hp' | hp'
        · subst hp'
          exact hnew
        · exact h p hp'
      · intro p hp
        rw [storeIdempotencyResult_wallets] at hp
        rcases mem_mapSet hp with hp' | hp'
        · subst hp'
          exact hnew
        · exact h p hp'

theorem integerBalances_transferFunds (s : EngineState)
    (senderWalletId receiverWalletId : Nat) (amount : ℚ) (k : Option String)
    (hamt : (amount * 100).den = 1) (h : IntegerBalances s) :
    IntegerBalances (transferFunds s senderWalletId receiverWalletId amount k).2 := by
  unfold transferFunds
  split
  · exact h
  · split
    · exact h
    · split
      · exact h
      · next senderWallet hs =>
        split
        · exact h
        · next receiverWallet hr =>
          split
          · exact h
          · split
            · exact h
            · have hsnew : (senderWallet.balance - amount * 100).den = 1 :=
                den_one_sub (h _ (mapGet_mem hs)) hamt
              have hrnew : (receiverWallet.balance + amount * 100).den = 1 :=
                den_one_add (h _ (mapGet_mem hr)) hamt
              have hmem : ∀ p : Nat × Wallet,
                  p ∈ mapSet (mapSet s.wallets senderWalletId
                    { senderWallet with balance := senderWallet.balance - amount * 100 })
                    receiverWalletId
                    { receiverWallet with balance := receiverWallet.balance + amount * 100 } →
                  p.2.balance.den = 1 := by
                intro p hp
                rcases mem_mapSet hp with hp' | hp'
                · subst hp'
                  exact hrnew
                · rcases mem_mapSet hp' with hp'' | hp''
                  · subst hp''
                    exact hsnew
                  · exact h p hp''
              split
              · exact fun p hp => hmem p hp
              · dsimp only
                split
                · exact fun p hp => hmem p hp
                · intro p hp
                  rw [storeIdempotencyResult_wallets] at hp
                  exact hmem p hp

/-! ### Claims -/

/-- C1: for every `transferFunds` call on a reachable engine state in which
the idempotency gate does not hit, the sender differs from the receiver,
both wallets exist, their currencies match, and the sender's major-unit
balance (`balance / 100`) is at least `amount`: the call succeeds, the
sender's posterior major-unit balance equals its prior one minus `amount`,
the receiver's posterior major-unit balance equals its prior one plus
`amount`, and the sum of the two stored balances is unchanged. -/
theorem c1_valid_transfer_moves_amount_conserving_total (s : EngineState)
    (senderWalletId receiverWalletId : Nat) (amount : ℚ) (k : Option String)
    (senderWallet receiverWallet : Wallet)
    (hreach : Reachable s)
    (hc : checkIdempotency s k = none)
    (hne : senderWalletId ≠ receiverWalletId)
    (hs : mapGet s.wallets senderWalletId = some senderWallet)
    (hr : mapGet s.wallets receiverWalletId = some receiverWallet)
    (hcur : senderWallet.currency = receiverWallet.currency)
    (hge : amount ≤ senderWallet.balance / 100) :
    (∃ p, (transferFunds s senderWalletId receiverWalletId amount k).1 = Except.ok p) ∧
    ∃ senderAfter receiverAfter,
      mapGet (transferFunds s senderWalletId receiverWalletId amount k).2.wallets
        senderWalletId = some senderAfter ∧
      mapGet (transferFunds s senderWalletId receiverWalletId amount k).2.wallets
        receiverWalletId = some receiverAfter ∧
      senderAfter.balance / 100 = senderWallet.balance / 100 - amount ∧
      receiverAfter.balance / 100 = receiverWallet.balance / 100 + amount ∧
      senderAfter.balance + receiverAfter.balance =
        senderWallet.balance + receiverWallet.balance := by
  obtain ⟨senderHistory, hhs⟩ := reachable_histTotal s hreach _ _ hs
  obtain ⟨receiverHistory, hhr⟩ := reachable_histTotal s hreach _ _ hr
  rw [transferFunds_success s senderWalletId receiverWalletId amount k senderWallet
    receiverWallet senderHistory receiverHistory hc hne hs hr hcur hge hhs hhr]
  refine ⟨⟨_, rfl⟩,
    { senderWallet with balance := senderWallet.balance - amount * 100 },
    { receiverWallet with balance := receiverWallet.balance + amount * 100 },
    ?_, ?_, ?_, ?_, ?_⟩
  · rw [storeIdempotencyResult_wallets]
    dsimp only
    rw [mapGet_mapSet_ne _ _ _ _ hne]
    exact mapGet_mapSet_self _ _ _
  · rw [storeIdempotencyResult_wallets]
    dsimp only
    exact mapGet_mapSet_self _ _ _
  · dsimp only
    ring
  · dsimp only
    ring
  · dsimp only
    ring

/-- Closed instantiation of C1: transfer 50 from wallet 0 (100.00 USD) to
wallet 1 (0.00 USD) in the reachable state `reachState2`. -/
theorem c1_witness :
    (∃ p, (transferFunds reachState2 0 1 50 none).1 = Except.ok p) ∧
    ∃ senderAfter receiverAfter,
      mapGet (transferFunds reachState2 0 1 50 none).2.wallets 0 = some senderAfter ∧
      mapGet (transferFunds reachState2 0 1 50 none).2.wallets 1 = some receiverAfter ∧
      senderAfter.balance / 100 =
        (Wallet.mk 0 Currency.USD 10000).balance / 100 - 50 ∧
      receiverAfter.balance / 100 =
        (Wallet.mk 1 Currency.USD 0).balance / 100 + 50 ∧
      senderAfter.balance + receiverAfter.balance =
        (Wallet.mk 0 Currency.USD 10000).balance + (Wallet.mk 1 Currency.USD 0).balance :=
  c1_valid_transfer_moves_amount_conserving_total reachState2 0 1 50 none
    (Wallet.mk 0 Currency.USD 10000) (Wallet.mk 1 Currency.USD 0)
    (Reachable.fund reachState1 0 100 none
      (Reachable.create reachState0 (some Currency.USD)
        (Reachable.create initialState (some Currency.USD) Reachable.init))
      (by norm_num))
    rfl (by decide) (by decide) (by decide) rfl (by decide)

/-- C4: in every state reachable by engine operations from the initial
empty state, every stored account balance is non-negative. -/
theorem c4_reachable_balances_nonneg (s : EngineState) (h : Reachable s) :
    BalancesNonneg s := by
  induction h with
  | init =>
    intro p hp
    exact absurd hp (by simp [initialState])
  | create s' currency _ ih => exact balancesNonneg_createWallet s' currency ih
  | fund s' walletId amount k _ hpos ih =>
    exact balancesNonneg_fundWallet s' walletId amount k hpos ih
  | transfer s' senderWalletId receiverWalletId amount k _ hpos ih =>
    exact balancesNonneg_transferFunds s' senderWalletId receiverWalletId amount k hpos ih
  | details s' walletId _ ih =>
    rw [getWalletDetails_state]
    exact ih

/-- Closed instantiation of C4 at the reachable state `reachState2`. -/
theorem c4_witness :
    (0 : ℚ) ≤ ((0, Wallet.mk 0 Currency.USD 10000) : Nat × Wallet).2.balance :=
  c4_reachable_balances_nonneg reachState2
    (Reachable.fund reachState1 0 100 none
      (Reachable.create reachState0 (some Currency.USD)
        (Reachable.create initialState (some Currency.USD) Reachable.init))
      (by norm_num))
    (0, Wallet.mk 0 Currency.USD 10000) (by decide)

/-- C7: a `transferFunds` call with equal sender and receiver ids and no
idempotency-cache hit signals `Conflict` and changes nothing — stated for
every state, so in particular when no wallet with that id exists, because
the self-transfer check precedes the existence checks. -/
theorem c7_self_transfer_signals_conflict (s : EngineState) (walletId : Nat)
    (amount : ℚ) (k : Option String) (hc : checkIdempotency s k = none) :
    transferFunds s walletId walletId amount k =
      (Except.error (WalletError.conflictException
        "Cannot transfer funds to the same wallet."), s) :=
  transferFunds_selfTransfer s walletId amount k hc

/-- Closed instantiation of C7 on the empty state, where wallet 42 does not
exist: the self-transfer still signals `Conflict`, not `NotFound`. -/
theorem c7_witness :
    transferFunds initialState 42 42 5 none =
      (Except.error (WalletError.conflictException
        "Cannot transfer funds to the same wallet."), initialState) :=
  c7_self_transfer_signals_conflict initialState 42 5 none rfl

/-- C5: for every `fundWallet` call on a reachable engine state in which
the idempotency gate does not hit and the wallet exists: the call succeeds,
the wallet's posterior major-unit balance equals its prior one plus
`amount`, exactly one new record — a `FUND` record carrying `amount` in
major units — is appended to that wallet's history, and no other wallet's
history changes. -/
theorem c5_fund_credits_and_appends_one_record (s : EngineState) (walletId : Nat)
    (amount : ℚ) (k : Option String) (wallet : Wallet)
    (hreach : Reachable s)
    (hc : checkIdempotency s k = none)
    (hw : mapGet s.wallets walletId = some wallet) :
    (∃ p, (fundWallet s walletId amount k).1 = Except.ok p) ∧
    (∃ walletAfter,
      mapGet (fundWallet s walletId amount k).2.wallets walletId = some walletAfter ∧
      walletAfter.balance / 100 = wallet.balance / 100 + amount) ∧
    (∃ history tx,
      mapGet s.transactionHistory walletId = some history ∧
      mapGet (fundWallet s walletId amount k).2.transactionHistory walletId
        = some (history ++ [tx]) ∧
      tx.action = TransactionAction.FUND ∧ tx.amount = amount) ∧
    (∀ otherId, otherId ≠ walletId →
      mapGet (fundWallet s walletId amount k).2.transactionHistory otherId =
        mapGet s.transactionHistory otherId) := by
  obtain ⟨history, hh⟩ := reachable_histTotal s hreach _ _ hw
  rw [fundWallet_success s walletId amount k wallet history hc hw hh]
  refine ⟨⟨_, rfl⟩,
    ⟨{ wallet with balance := wallet.balance + amount * 100 }, ?_, ?_⟩,
    ⟨history,
      { id := s.nextId, walletId := walletId, action := .FUND, amount := amount,
        counterpartyWalletId := none, transferGroupId := none },
      hh, ?_, rfl, rfl⟩, ?_⟩
  · rw [storeIdempotencyResult_wallets]
    dsimp only
    exact mapGet_mapSet_self _ _ _
  · dsimp only
    ring
  · rw [storeIdempotencyResult_transactionHistory]
    dsimp only
    exact mapGet_mapSet_self _ _ _
  · intro otherId hne
    rw [storeIdempotencyResult_transactionHistory]
    dsimp only
    exact mapGet_mapSet_ne _ _ _ _ hne

/-- Closed instantiation of C5: fund wallet 0 of `reachState2` with 7. -/
theorem c5_witness :
    (∃ p, (fundWallet reachState2 0 7 none).1 = Except.ok p) ∧
    (∃ walletAfter,
      mapGet (fundWallet reachState2 0 7 none).2.wallets 0 = some walletAfter ∧
      walletAfter.balance / 100 = (Wallet.mk 0 Currency.USD 10000).balance / 100 + 7) ∧
    (∃ history tx,
      mapGet reachState2.transactionHistory 0 = some history ∧
      mapGet (fundWallet reachState2 0 7 none).2.transactionHistory 0
        = some (history ++ [tx]) ∧
      tx.action = TransactionAction.FUND ∧ tx.amount = 7) ∧
    (∀ otherId, otherId ≠ 0 →
      mapGet (fundWallet reachState2 0 7 none).2.transactionHistory otherId =
        mapGet reachState2.transactionHistory otherId) :=
  c5_fund_credits_and_appends_one_record reachState2 0 7 none
    (Wallet.mk 0 Currency.USD 10000)
    (Reachable.fund reachState1 0 100 none
      (Reachable.create reachState0 (some Currency.USD)
        (Reachable.create initialState (some Currency.USD) Reachable.init))
      (by norm_num))
    rfl (by decide)

/-- C6: a `transferFunds` call on a reachable state that passes all
validation appends exactly one `TRANSFER_OUT` record to the sender's
history and exactly one `TRANSFER_IN` record to the receiver's history;
both carry the same freshly generated transfer-group identifier (it occurs
in no record of the prior state), the `TRANSFER_OUT` record carries the
receiver's id as counterparty, the `TRANSFER_IN` record the sender's, and
no other history changes. -/
theorem c6_transfer_appends_paired_records (s : EngineState)
    (senderWalletId receiverWalletId : Nat) (amount : ℚ) (k : Option String)
    (senderWallet receiverWallet : Wallet)
    (hreach : Reachable s)
    (hc : checkIdempotency s k = none)
    (hne : senderWalletId ≠ receiverWalletId)
    (hs : mapGet s.wallets senderWalletId = some senderWallet)
    (hr : mapGet s.wallets receiverWalletId = some receiverWallet)
    (hcur : senderWallet.currency = receiverWallet.currency)
    (hge : amount ≤ senderWallet.balance / 100) :
    ∃ g senderHistory receiverHistory senderTx receiverTx,
      mapGet s.transactionHistory senderWalletId = some senderHistory ∧
      mapGet s.transactionHistory receiverWalletId = some receiverHistory ∧
      mapGet (transferFunds s senderWalletId receiverWalletId amount k).2.transactionHistory
        senderWalletId = some (senderHistory ++ [senderTx]) ∧
      mapGet (transferFunds s senderWalletId receiverWalletId amount k).2.transactionHistory
        receiverWalletId = some (receiverHistory ++ [receiverTx]) ∧
      senderTx.action = TransactionAction.TRANSFER_OUT ∧
      receiverTx.action = TransactionAction.TRANSFER_IN ∧
      senderTx.transferGroupId = some g ∧
      receiverTx.transferGroupId = some g ∧
      senderTx.counterpartyWalletId = some receiverWalletId ∧
      receiverTx.counterpartyWalletId = some senderWalletId ∧
      (∀ p ∈ s.transactionHistory, ∀ t ∈ p.2, t.transferGroupId ≠ some g) ∧
      (∀ otherId, otherId ≠ senderWalletId → otherId ≠ receiverWalletId →
        mapGet (transferFunds s senderWalletId receiverWalletId amount k).2.transactionHistory
          otherId = mapGet s.transactionHistory otherId) := by
  obtain ⟨senderHistory, hhs⟩ := reachable_histTotal s hreach _ _ hs
  obtain ⟨receiverHistory, hhr⟩ := reachable_histTotal s hreach _ _ hr
  have hfresh := reachable_groupIdsBelow s hreach
  rw [transferFunds_success s senderWalletId receiverWalletId amount k senderWallet
    receiverWallet senderHistory receiverHistory hc hne hs hr hcur hge hhs hhr]
  refine ⟨s.nextId, senderHistory, receiverHistory,
    { id := s.nextId + 1, walletId := senderWalletId, action := .TRANSFER_OUT,
      amount := amount, counterpartyWalletId := some receiverWalletId,
      transferGroupId := some s.nextId },
    { id := s.nextId + 2, walletId := receiverWalletId, action := .TRANSFER_IN,
      amount := amount, counterpartyWalletId := some senderWalletId,
      transferGroupId := some s.nextId },
    hhs, hhr, ?_, ?_, rfl, rfl, rfl, rfl, rfl, rfl, ?_, ?_⟩
  · rw [storeIdempotencyResult_transactionHistory]
    dsimp only
    rw [mapGet_mapSet_ne _ _ _ _ hne]
    exact mapGet_mapSet_self _ _ _
  · rw [storeIdempotencyResult_transactionHistory]
    dsimp only
    exact mapGet_mapSet_self _ _ _
  · intro p hp t ht hg
    exact absurd (hfresh p hp t ht s.nextId hg) (lt_irrefl _)
  · intro otherId h1 h2
    rw [storeIdempotencyResult_transactionHistory]
    dsimp only
    rw [mapGet_mapSet_ne _ _ _ _ h2, mapGet_mapSet_ne _ _ _ _ h1]

/-- Closed instantiation of C6: transfer 50 from wallet 0 to wallet 1 in
`reachState2`. -/
theorem c6_witness :
    ∃ g senderHistory receiverHistory senderTx receiverTx,
      mapGet reachState2.transactionHistory 0 = some senderHistory ∧
      mapGet reachState2.transactionHistory 1 = some receiverHistory ∧
      mapGet (transferFunds reachState2 0 1 50 none).2.transactionHistory 0
        = some (senderHistory ++ [senderTx]) ∧
      mapGet (transferFunds reachState2 0 1 50 none).2.transactionHistory 1
        = some (receiverHistory ++ [receiverTx]) ∧
      senderTx.action = TransactionAction.TRANSFER_OUT ∧
      receiverTx.action = TransactionAction.TRANSFER_IN ∧
      senderTx.transferGroupId = some g ∧
      receiverTx.transferGroupId = some g ∧
      senderTx.counterpartyWalletId = some 1 ∧
      receiverTx.counterpartyWalletId = some 0 ∧
      (∀ p ∈ reachState2.transactionHistory, ∀ t ∈ p.2, t.transferGroupId ≠ some g) ∧
      (∀ otherId, otherId ≠ 0 → otherId ≠ 1 →
        mapGet (transferFunds reachState2 0 1 50 none).2.transactionHistory otherId =
          mapGet reachState2.transactionHistory otherId) :=
  c6_transfer_appends_paired_records reachState2 0 1 50 none
    (Wallet.mk 0 Currency.USD 10000) (Wallet.mk 1 Currency.USD 0)
    (Reachable.fund reachState1 0 100 none
      (Reachable.create reachState0 (some Currency.USD)
        (Reachable.create initialState (some Currency.USD) Reachable.init))
      (by norm_num))
    rfl (by decide) (by decide) (by decide) rfl (by decide)

/-- C2 counterexample: the empty string is a supplied token (the
`idempotency-key` header can be sent empty), but it is falsy in JS, so the
idempotency gate never hits and the store never records it.  A second
identical `fundWallet` call bearing token `""` therefore re-executes: the
second payload differs from the first and the balance is credited twice. -/
theorem c2_counterexample :
    (fundWallet reachState2 0 100 (some "")).1 =
      Except.ok (Payload.fund "Transaction successful" 0 Currency.USD 200) ∧
    (fundWallet (fundWallet reachState2 0 100 (some "")).2 0 100 (some "")).1 =
      Except.ok (Payload.fund "Transaction successful" 0 Currency.USD 300) ∧
    mapGet (fundWallet (fundWallet reachState2 0 100 (some "")).2 0 100
        (some "")).2.wallets 0 =
      some (Wallet.mk 0 Currency.USD 30000) :=
  ⟨by decide, by decide, by decide⟩

/-- C2 (amended to non-empty tokens): a mutating call that succeeds bearing
a non-empty token leaves the token cached, so the identical second call
returns exactly the first call's payload and exactly the first call's
post-state — no balance, history or cache change. -/
theorem c2_idempotent_replay_nonempty_token :
    (∀ s walletId amount t p s1, t ≠ "" →
      fundWallet s walletId amount (some t) = (Except.ok p, s1) →
      fundWallet s1 walletId amount (some t) = (Except.ok p, s1)) ∧
    (∀ s senderWalletId receiverWalletId amount t p s1, t ≠ "" →
      transferFunds s senderWalletId receiverWalletId amount (some t)
        = (Except.ok p, s1) →
      transferFunds s1 senderWalletId receiverWalletId amount (some t)
        = (Except.ok p, s1)) := by
  constructor
  · intro s walletId amount t p s1 ht hcall
    have hstore := fundWallet_ok_stores s s1 walletId amount t p ht hcall
    have hcheck : checkIdempotency s1 (some t) = some p := by
      rw [checkIdempotency_some_token s1 t ht]
      exact hstore
    exact fundWallet_cached s1 walletId amount (some t) p hcheck
  · intro s senderWalletId receiverWalletId amount t p s1 ht hcall
    have hstore :=
      transferFunds_ok_stores s s1 senderWalletId receiverWalletId amount t p ht hcall
    have hcheck : checkIdempotency s1 (some t) = some p := by
      rw [checkIdempotency_some_token s1 t ht]
      exact hstore
    exact transferFunds_cached s1 senderWalletId receiverWalletId amount (some t) p hcheck

/-- Closed instantiation of the amended C2: replaying `fundWallet(0, 100)`
with token "tok" returns the first payload and the unchanged first
post-state. -/
theorem c2_witness :
    fundWallet (fundWallet reachState2 0 100 (some "tok")).2 0 100 (some "tok") =
      (Except.ok (Payload.fund "Transaction successful" 0 Currency.USD 200),
       (fundWallet reachState2 0 100 (some "tok")).2) :=
  c2_idempotent_replay_nonempty_token.1 reachState2 0 100 "tok"
    (Payload.fund "Transaction successful" 0 Currency.USD 200)
    (fundWallet reachState2 0 100 (some "tok")).2
    (by decide) (by decide)

/-- C3: whenever `fundWallet` or `transferFunds` signals one of the
service's exceptions (`NotFoundException`, `ConflictException`, or
`BadRequestException` — the class carrying both `InvalidOperation` and
`InsufficientFunds`), the engine state is returned unchanged: no balance,
no history, no cache entry.  In particular a transfer whose `amount`
exceeds the sender's major-unit balance signals the insufficient-balance
error and changes nothing. -/
theorem c3_errors_leave_state_unchanged :
    (∀ s walletId amount k e,
      (fundWallet s walletId amount k).1 = Except.error e →
      e ≠ WalletError.typeError →
      (fundWallet s walletId amount k).2 = s) ∧
    (∀ s senderWalletId receiverWalletId amount k e,
      (transferFunds s senderWalletId receiverWalletId amount k).1 = Except.error e →
      e ≠ WalletError.typeError →
      (transferFunds s senderWalletId receiverWalletId amount k).2 = s) ∧
    (∀ s senderWalletId receiverWalletId amount k senderWallet receiverWallet,
      checkIdempotency s k = none →
      senderWalletId ≠ receiverWalletId →
      mapGet s.wallets senderWalletId = some senderWallet →
      mapGet s.wallets receiverWalletId = some receiverWallet →
      senderWallet.currency = receiverWallet.currency →
      senderWallet.balance / 100 < amount →
      transferFunds s senderWalletId receiverWalletId amount k =
        (Except.error (WalletError.badRequestException
          "Insufficient balance in sender wallet."), s)) := by
  refine ⟨?_, ?_, ?_⟩
  · intro s walletId amount k e herr hnet
    cases hch : checkIdempotency s k with
    | some cached =>
      rw [fundWallet_cached _ _ _ _ _ hch] at herr
      exact absurd herr (by simp)
    | none =>
      cases hw : mapGet s.wallets walletId with
      | none => rw [fundWallet_notFound _ _ _ _ hch hw]
      | some wallet =>
        cases hh : mapGet s.transactionHistory walletId with
        | none =>
          rw [fundWallet_missingHistory _ _ _ _ _ hch hw hh] at herr
          exact absurd (Except.error.inj herr).symm hnet
        | some history =>
          rw [fundWallet_success _ _ _ _ _ _ hch hw hh] at herr
          exact absurd herr (by simp)
  · intro s senderWalletId receiverWalletId amount k e herr hnet
    cases hch : checkIdempotency s k with
    | some cached =>
      rw [transferFunds_cached _ _ _ _ _ _ hch] at herr
      exact absurd herr (by simp)
    | none =>
      by_cases heqid : senderWalletId = receiverWalletId
      · subst heqid
        rw [transferFunds_selfTransfer _ _ _ _ hch]
      · cases hs : mapGet s.wallets senderWalletId with
        | none => rw [transferFunds_senderNotFound _ _ _ _ _ hch heqid hs]
        | some senderWallet =>
          cases hr : mapGet s.wallets receiverWalletId with
          | none => rw [transferFunds_receiverNotFound _ _ _ _ _ _ hch heqid hs hr]
          | some receiverWallet =>
            by_cases hcur : senderWallet.currency = receiverWallet.currency
            · by_cases hlt : senderWallet.balance / 100 < amount
              · rw [transferFunds_insufficient _ _ _ _ _ _ _ hch heqid hs hr hcur hlt]
              · have hge : amount ≤ senderWallet.balance / 100 := not_lt.mp hlt
                cases hhs : mapGet s.transactionHistory senderWalletId with
                | none =>
                  rw [transferFunds_missingSenderHistory _ _ _ _ _ _ _ hch heqid hs hr
                    hcur hge hhs] at herr
                  exact absurd (Except.error.inj herr).symm hnet
                | some senderHistory =>
                  cases hhr : mapGet s.transactionHistory receiverWalletId with
                  | none =>
                    rw [transferFunds_missingReceiverHistory _ _ _ _ _ _ _ _ hch heqid
                      hs hr hcur hge hhs hhr] at herr
                    exact absurd (Except.error.inj herr).symm hnet
                  | some receiverHistory =>
                    rw [transferFunds_success _ _ _ _ _ _ _ _ _ hch heqid hs hr hcur
                      hge hhs hhr] at herr
                    exact absurd herr (by simp)
            · rw [transferFunds_currencyMismatch _ _ _ _ _ _ _ hch heqid hs hr hcur]
  · intro s senderWalletId receiverWalletId amount k senderWallet receiverWallet hch
      heqid hs hr hcur hlt
    exact transferFunds_insufficient _ _ _ _ _ _ _ hch heqid hs hr hcur hlt

/-- Closed instantiation of C3: funding the nonexistent wallet 99 of
`sampleState` errors and leaves the state unchanged. -/
theorem c3_witness : (fundWallet sampleState 99 5 none).2 = sampleState :=
  c3_errors_leave_state_unchanged.1 sampleState 99 5 none
    (WalletError.notFoundException "Wallet with ID \"99\" not found.")
    (by decide) (by decide)

/-- C8 counterexample: 1/128 is a positive number (it passes the upstream
`@IsPositive`/`@IsNumber` validation and is even exactly representable as a
binary float), yet funding with it stores the balance 25/32 minor units —
the stored balance is not an integer, so fractional minor units do arise. -/
theorem c8_counterexample :
    (0 : ℚ) < 1 / 128 ∧
    mapGet (fundWallet sampleState 1 (1 / 128) none).2.wallets 1 =
      some (Wallet.mk 1 Currency.USD (25 / 32)) ∧
    ((25 : ℚ) / 32).den ≠ 1 :=
  ⟨by decide, by decide, by decide⟩

/-- C8 (amended): both mutating operations convert the boundary amount to
minor units by multiplying by 100 before mutating balances, and stored
balances remain integers provided every boundary amount is an integer
multiple of 0.01 (`(amount * 100).den = 1`) — a restriction the upstream
validation does not enforce (see the counterexample). -/
theorem c8_minor_unit_conversion_and_integrality :
    (∀ s walletId amount k wallet history,
      checkIdempotency s k = none →
      mapGet s.wallets walletId = some wallet →
      mapGet s.transactionHistory walletId = some history →
      mapGet (fundWallet s walletId amount k).2.wallets walletId =
        some { wallet with balance := wallet.balance + amount * 100 }) ∧
    (∀ s senderWalletId receiverWalletId amount k senderWallet receiverWallet
        senderHistory receiverHistory,
      checkIdempotency s k = none →
      senderWalletId ≠ receiverWalletId →
      mapGet s.wallets senderWalletId = some senderWallet →
      mapGet s.wallets receiverWalletId = some receiverWallet →
      senderWallet.currency = receiverWallet.currency →
      amount ≤ senderWallet.balance / 100 →
      mapGet s.transactionHistory senderWalletId = some senderHistory →
      mapGet s.transactionHistory receiverWalletId = some receiverHistory →
      mapGet (transferFunds s senderWalletId receiverWalletId amount k).2.wallets
          senderWalletId =
        some { senderWallet with balance := senderWallet.balance - amount * 100 } ∧
      mapGet (transferFunds s senderWalletId receiverWalletId amount k).2.wallets
          receiverWalletId =
        some { receiverWallet with balance := receiverWallet.balance + amount * 100 }) ∧
    (∀ s currency, IntegerBalances s → IntegerBalances (createWallet s currency).2) ∧
    (∀ s walletId amount k, (amount * 100).den = 1 → IntegerBalances s →
      IntegerBalances (fundWallet s walletId amount k).2) ∧
    (∀ s senderWalletId receiverWalletId amount k, (amount * 100).den = 1 →
      IntegerBalances s →
      IntegerBalances (transferFunds s senderWalletId receiverWalletId amount k).2) := by
  refine ⟨?_, ?_, integerBalances_createWallet, integerBalances_fundWallet,
    integerBalances_transferFunds⟩
  · intro s walletId amount k wallet history hc hw hh
    rw [fundWallet_success s walletId amount k wallet history hc hw hh]
    rw [storeIdempotencyResult_wallets]
    dsimp only
    exact mapGet_mapSet_self _ _ _
  · intro s senderWalletId receiverWalletId amount k senderWallet receiverWallet
      senderHistory receiverHistory hc hne hs hr hcur hge hhs hhr
    rw [transferFunds_success s senderWalletId receiverWalletId amount k senderWallet
      receiverWallet senderHistory receiverHistory hc hne hs hr hcur hge hhs hhr]
    constructor
    · rw [storeIdempotencyResult_wallets]
      dsimp only
      rw [mapGet_mapSet_ne _ _ _ _ hne]
      exact mapGet_mapSet_self _ _ _
    · rw [storeIdempotencyResult_wallets]
      dsimp only
      exact mapGet_mapSet_self _ _ _

/-- Closed instantiation of the amended C8: funding wallet 0 of
`sampleState` with the two-decimal amount 5 keeps all balances integral. -/
theorem c8_witness : IntegerBalances (fundWallet sampleState 0 5 none).2 :=
  c8_minor_unit_conversion_and_integrality.2.2.2.1 sampleState 0 5 none
    (by decide) (by decide)

/-- C9 counterexample: at concrete inputs, the currency-mismatch error and
the insufficient-funds error of `transferFunds` carry the same exception
class (`BadRequestException`), so the two business-rule failures are not
signalled as two distinct error kinds. -/
theorem c9_counterexample :
    (transferFunds sampleState 0 2 5 none).1 =
      Except.error (WalletError.badRequestException
        "Transfer between different currencies is not supported.") ∧
    (transferFunds sampleState 0 1 500 none).1 =
      Except.error (WalletError.badRequestException
        "Insufficient balance in sender wallet.") ∧
    exceptionClassOf (WalletError.badRequestException
        "Transfer between different currencies is not supported.") =
      exceptionClassOf (WalletError.badRequestException
        "Insufficient balance in sender wallet.") :=
  ⟨by decide, by decide, rfl⟩

/-- C9 (amended): `transferFunds` signals currency mismatch and
insufficient funds through the same exception class
(`BadRequestException`); the two failures are distinguishable by their
descriptive messages, which are distinct, but not by error kind. -/
theorem c9_business_rule_errors_same_class :
    (∀ s senderWalletId receiverWalletId amount k senderWallet receiverWallet,
      checkIdempotency s k = none →
      senderWalletId ≠ receiverWalletId →
      mapGet s.wallets senderWalletId = some senderWallet →
      mapGet s.wallets receiverWalletId = some receiverWallet →
      senderWallet.currency ≠ receiverWallet.currency →
      transferFunds s senderWalletId receiverWalletId amount k =
        (Except.error (WalletError.badRequestException
          "Transfer between different currencies is not supported."), s)) ∧
    (∀ s senderWalletId receiverWalletId amount k senderWallet receiverWallet,
      checkIdempotency s k = none →
      senderWalletId ≠ receiverWalletId →
      mapGet s.wallets senderWalletId = some senderWallet →
      mapGet s.wallets receiverWalletId = some receiverWallet →
      senderWallet.currency = receiverWallet.currency →
      senderWallet.balance / 100 < amount →
      transferFunds s senderWalletId receiverWalletId amount k =
        (Except.error (WalletError.badRequestException
          "Insufficient balance in sender wallet."), s)) ∧
    exceptionClassOf (WalletError.badRequestException
        "Transfer between different currencies is not supported.") =
      exceptionClassOf (WalletError.badRequestException
        "Insufficient balance in sender wallet.") ∧
    "Transfer between different currencies is not supported." ≠
      "Insufficient balance in sender wallet." := by
  refine ⟨?_, ?_, rfl, by decide⟩
  · intro s senderWalletId receiverWalletId amount k senderWallet receiverWallet hc
      hne hs hr hcur
    exact transferFunds_currencyMismatch _ _ _ _ _ _ _ hc hne hs hr hcur
  · intro s senderWalletId receiverWalletId amount k senderWallet receiverWallet hc
      hne hs hr hcur hlt
    exact transferFunds_insufficient _ _ _ _ _ _ _ hc hne hs hr hcur hlt

/-- Closed instantiation of the amended C9: a cross-currency transfer in
`sampleState` signals the `BadRequestException` mismatch error. -/
theorem c9_witness :
    transferFunds sampleState 0 2 5 none =
      (Except.error (WalletError.badRequestException
        "Transfer between different currencies is not supported."), sampleState) :=
  c9_business_rule_errors_same_class.1 sampleState 0 2 5 none
    (Wallet.mk 0 Currency.USD 10000) (Wallet.mk 2 Currency.NGN 0)
    rfl (by decide) (by decide) (by decide) (by decide)

/-- C10: the idempotency cache is keyed solely by the token.  If a supplied
token is present in the cache, both mutating operations immediately return
the cached payload with the state untouched — regardless of every other
argument (a nonexistent wallet id, a self-transfer, any amount) and
regardless of which operation stored the payload.  The side condition
`t ≠ ""` is justified by the second conjunct: on every reachable state the
falsy empty-string token is never stored, so every token that can actually
be present in the cache is covered. -/
theorem c10_cache_keyed_solely_by_token :
    (∀ s t p walletId senderWalletId receiverWalletId amount amount2,
      t ≠ "" →
      mapGet s.idempotentStore t = some p →
      fundWallet s walletId amount (some t) = (Except.ok p, s) ∧
      transferFunds s senderWalletId receiverWalletId amount2 (some t)
        = (Except.ok p, s)) ∧
    (∀ s, Reachable s → mapGet s.idempotentStore "" = none) := by
  constructor
  · intro s t p walletId senderWalletId receiverWalletId amount amount2 ht hstore
    have hcheck : checkIdempotency s (some t) = some p := by
      rw [checkIdempotency_some_token s t ht]
      exact hstore
    exact ⟨fundWallet_cached s walletId amount (some t) p hcheck,
      transferFunds_cached s senderWalletId receiverWalletId amount2 (some t) p hcheck⟩
  · exact reachable_emptyTokenNotCached

/-- Closed instantiation of C10: with "tok" cached, a `fundWallet` call on
the nonexistent wallet 99 and a self-transfer on the nonexistent wallet 5
both return the cached payload and leave the state untouched. -/
theorem c10_witness :
    fundWallet sampleStateCached 99 123 (some "tok")
      = (Except.ok cachedPayload, sampleStateCached) ∧
    transferFunds sampleStateCached 5 5 7 (some "tok")
      = (Except.ok cachedPayload, sampleStateCached) :=
  c10_cache_keyed_solely_by_token.1 sampleStateCached "tok" cachedPayload 99 5 5 123 7
    (by decide) rfl

end WalletService
